import Mathlib

/-!
Shallow embedding of the portfolio rebalancing and optimization engine of
this repository (files src/portfolio/rebalancer.py and
src/portfolio/optimizer.py), together with theorems settling the claims
about it.

Modelling conventions:
- Numbers are exact rationals; a Python float literal such as 0.1 is taken
  at its decimal value, and the engine arithmetic on the inputs used by the
  concrete theorems below is exact in double precision as well.
- Dates are integer day numbers, so the Python expression
  (a - b).days becomes a - b; every claim under study uses whole-day dates.
- A Python expression that raises an exception is modelled by an
  Option-valued function returning none.
- Python dictionaries of weights are association lists; lookup takes the
  first matching key, and key iteration follows insertion order.
-/

namespace Portfolio

abbrev Sym := String

abbrev Weights := List (Sym × ℚ)

/-- Python dict lookup with default: weights.get(symbol, 0.0). -/
def lookupW (w : Weights) (s : Sym) : ℚ :=
  match w.find? (fun p => p.1 == s) with
  | some p => p.2
  | none => 0

/-- Duplicate removal keeping first occurrences, with an accumulator of
the keys already seen. -/
def uniqAux (seen : List Sym) : List Sym → List Sym
  | [] => []
  | s :: rest =>
    if s ∈ seen then uniqAux seen rest else s :: uniqAux (s :: seen) rest

/-- Key list of a union of dicts in first-occurrence order.  Models the
Python expression set(list(cur.keys()) + list(tgt.keys())); the set
iteration order in Python is unspecified, here it is made deterministic
(no claim depends on the order). -/
def uniqKeepFirst (l : List Sym) : List Sym := uniqAux [] l

/-- Union of the key sets of two weight dicts, as iterated by the source. -/
def unionSyms (cur tgt : Weights) : List Sym :=
  uniqKeepFirst (cur.map Prod.fst ++ tgt.map Prod.fst)

/-- Python max over a list of numbers: raises ValueError (none) on []. -/
def maxQ : List ℚ → Option ℚ
  | [] => none
  | x :: xs => some (xs.foldl max x)

inductive RebalanceFrequency
  | daily | weekly | monthly | quarterly | semiAnnual | annual
deriving DecidableEq, Repr

inductive RebalanceTrigger
  | scheduled | threshold | manual | volatility | performance
deriving DecidableEq, Repr

/-- The .value string of the RebalanceFrequency enum. -/
def freqValue : RebalanceFrequency → String
  | .daily => "Daily"
  | .weekly => "Weekly"
  | .monthly => "Monthly"
  | .quarterly => "Quarterly"
  | .semiAnnual => "Semi-Annual"
  | .annual => "Annual"

/-- The frequency_days mapping of _is_scheduled_rebalance_due. -/
def frequencyDays : RebalanceFrequency → ℤ
  | .daily => 1
  | .weekly => 7
  | .monthly => 30
  | .quarterly => 90
  | .semiAnnual => 180
  | .annual => 365

/-- RebalanceConfig dataclass.  max_trades_per_period is a Python int and
may in principle be negative, hence the integer type. -/
structure RebalanceConfig where
  frequency : RebalanceFrequency
  threshold_percent : ℚ
  auto_rebalance : Bool
  trading_cost_percent : ℚ
  min_trade_amount : ℚ
  max_trades_per_period : ℤ
  volatility_threshold : ℚ
  performance_threshold : ℚ
deriving DecidableEq, Repr

/-- The default configuration built in PortfolioRebalancer.__init__. -/
def defaultConfig : RebalanceConfig where
  frequency := .monthly
  threshold_percent := 5
  auto_rebalance := false
  trading_cost_percent := 1/10
  min_trade_amount := 100
  max_trades_per_period := 20
  volatility_threshold := 1/50
  performance_threshold := 1/20

/-- One generated trade dict. -/
structure Trade where
  symbol : Sym
  action : String
  current_weight : ℚ
  target_weight : ℚ
  trade_amount : ℚ
  trade_weight : ℚ
deriving DecidableEq, Repr

/-- RebalanceEvent dataclass.  The trigger field is optional because the
backtest may pass through the trigger component of should_rebalance. -/
structure RebalanceEvent where
  date : ℤ
  trigger : Option RebalanceTrigger
  portfolio_name : String
  trades : List Trade
  cost : ℚ
  reason : String
  before_weights : Weights
  after_weights : Weights
deriving DecidableEq, Repr

/-- Mutable state of a PortfolioRebalancer instance. -/
structure PortfolioRebalancer where
  config : RebalanceConfig
  rebalance_history : List RebalanceEvent
  last_rebalance_date : Option ℤ
deriving DecidableEq, Repr

/-- A freshly constructed PortfolioRebalancer with the default config. -/
def freshRebalancer : PortfolioRebalancer where
  config := defaultConfig
  rebalance_history := []
  last_rebalance_date := none

/-- Per-symbol entry of the stock_drifts dict in analyze_drift. -/
structure StockDrift where
  current_weight : ℚ
  target_weight : ℚ
  drift : ℚ
  drift_percent : ℚ
deriving DecidableEq, Repr

/-- Body of the per-symbol loop of analyze_drift. -/
def mkStockDrift (cur tgt : Weights) (s : Sym) : StockDrift :=
  let c := lookupW cur s
  let t := lookupW tgt s
  let d := |c - t|
  { current_weight := c
    target_weight := t
    drift := d
    drift_percent := if t > 0 then d / t * 100 else 0 }

/-- Result dict of analyze_drift. -/
structure DriftAnalysis where
  total_drift : ℚ
  stock_drifts : List (Sym × StockDrift)
  largest_symbol : Option Sym
  largest_drift : ℚ
  rebalance_needed : Bool
  suggested_trades : List Trade
  estimated_cost : ℚ
deriving DecidableEq, Repr

/-- Descending stable insertion used to model the Python stable sort
trades.sort(key trade_amount, reverse).  An element is inserted before
the first strictly smaller amount, so equal amounts keep their original
relative order, exactly as a stable descending sort does. -/
def insertDesc (t : Trade) : List Trade → List Trade
  | [] => [t]
  | u :: us => if u.trade_amount ≤ t.trade_amount then t :: u :: us else u :: insertDesc t us

/-- Stable descending sort by trade_amount. -/
def sortDesc : List Trade → List Trade
  | [] => []
  | t :: ts => insertDesc t (sortDesc ts)

/-- Python slice l[:n] for an int n, including the negative-index case. -/
def pySliceTo (l : List Trade) (n : ℤ) : List Trade :=
  if 0 ≤ n then l.take n.toNat else l.take (l.length - (-n).toNat)

/-- Trading cost of one trade: amount times trading_cost_percent / 100. -/
def tradeCost (cfg : RebalanceConfig) (t : Trade) : ℚ :=
  t.trade_amount * (cfg.trading_cost_percent / 100)

/-- Per-symbol body of the trade loop of _generate_rebalance_trades:
builds a trade when the dollar amount reaches min_trade_amount and skips
the symbol otherwise. -/
def tradeFor (cfg : RebalanceConfig) (cur tgt : Weights) (pv : ℚ)
    (s : Sym) : Option Trade :=
  let c := lookupW cur s
  let t := lookupW tgt s
  let diff := t - c
  let tv := diff * pv
  if |tv| ≥ cfg.min_trade_amount then
    some { symbol := s
           action := if diff > 0 then "BUY" else "SELL"
           current_weight := c
           target_weight := t
           trade_amount := |tv|
           trade_weight := |diff| }
  else none

/-- PortfolioRebalancer._generate_rebalance_trades.  Builds one trade per
union symbol whose dollar amount reaches min_trade_amount, accumulates the
cost, sorts descending by amount, truncates to max_trades_per_period and,
when it truncates, recomputes the cost over the retained trades only. -/
def generate_rebalance_trades (r : PortfolioRebalancer) (cur tgt : Weights)
    (pv : ℚ) : List Trade × ℚ :=
  let cfg := r.config
  let trades := (unionSyms cur tgt).filterMap (tradeFor cfg cur tgt pv)
  let total_cost := (trades.map (tradeCost cfg)).sum
  let sorted := sortDesc trades
  if (sorted.length : ℤ) > cfg.max_trades_per_period then
    let kept := pySliceTo sorted cfg.max_trades_per_period
    (kept, (kept.map (tradeCost cfg)).sum)
  else
    (sorted, total_cost)

/-- PortfolioRebalancer.analyze_drift.  Returns none exactly where the
Python code raises: the max over the drift_percent values of an empty
stock_drifts dict raises ValueError. -/
def analyze_drift (r : PortfolioRebalancer) (cur tgt : Weights)
    (pv : ℚ) : Option DriftAnalysis :=
  let entries := (unionSyms cur tgt).map (fun s => (s, mkStockDrift cur tgt s))
  let total := (entries.map (fun e => e.2.drift)).sum
  let largest := entries.foldl
    (fun best e => if e.2.drift > best.2 then (some e.1, e.2.drift) else best)
    ((none : Option Sym), (0 : ℚ))
  match maxQ (entries.map (fun e => e.2.drift_percent)) with
  | none => none
  | some m =>
    let needed := m > r.config.threshold_percent
    let tc := if needed then generate_rebalance_trades r cur tgt pv else ([], 0)
    some { total_drift := total
           stock_drifts := entries
           largest_symbol := largest.1
           largest_drift := largest.2
           rebalance_needed := needed
           suggested_trades := tc.1
           estimated_cost := tc.2 }

/-- PortfolioRebalancer._is_scheduled_rebalance_due. -/
def is_scheduled_rebalance_due (r : PortfolioRebalancer) (current_date : ℤ) : Bool :=
  match r.last_rebalance_date with
  | none => true
  | some d => (current_date - d) ≥ frequencyDays r.config.frequency

/-- Guard of the volatility trigger: the Python test
(market_volatility and market_volatility > threshold) is falsy when the
argument is None or exactly 0.0. -/
def volGuard (mv : Option ℚ) (threshold : ℚ) : Bool :=
  match mv with
  | none => false
  | some v => v != 0 && v > threshold

/-- Guard of the performance trigger: truthiness test first, then the
comparison of the absolute value against the threshold. -/
def perfGuard (pp : Option ℚ) (threshold : ℚ) : Bool :=
  match pp with
  | none => false
  | some v => v != 0 && |v| > threshold

/-- PortfolioRebalancer.should_rebalance, for a supplied current_date.
The numeric suffixes the source interpolates into the threshold,
volatility and performance reason strings are elided (no claim reads
them); the scheduled reason string is reproduced exactly.  Returns none
exactly where the source raises, namely when analyze_drift raises on an
empty symbol union. -/
def should_rebalance (r : PortfolioRebalancer) (cur tgt : Weights)
    (current_date : ℤ) (market_volatility portfolio_performance : Option ℚ) :
    Option (Bool × Option RebalanceTrigger × String) :=
  if is_scheduled_rebalance_due r current_date then
    some (true, some .scheduled,
      "Scheduled " ++ freqValue r.config.frequency ++ " rebalancing")
  else
    match analyze_drift r cur tgt 100000 with
    | none => none
    | some da =>
      if da.rebalance_needed then
        some (true, some .threshold, "Drift threshold exceeded")
      else if volGuard market_volatility r.config.volatility_threshold then
        some (true, some .volatility, "High market volatility")
      else if perfGuard portfolio_performance r.config.performance_threshold then
        some (true, some .performance, "Significant performance")
      else
        some (false, none, "No rebalancing needed")

/-- PortfolioRebalancer.execute_rebalance, for a supplied current_date:
generates the trades, builds the event, appends it to the history and
moves the last_rebalance_date pointer.  The new rebalancer state is
returned alongside the event. -/
def execute_rebalance (r : PortfolioRebalancer) (cur tgt : Weights)
    (pv : ℚ) (portfolio_name : String) (trigger : Option RebalanceTrigger)
    (reason : String) (current_date : ℤ) :
    RebalanceEvent × PortfolioRebalancer :=
  let tc := generate_rebalance_trades r cur tgt pv
  let event : RebalanceEvent :=
    { date := current_date
      trigger := trigger
      portfolio_name := portfolio_name
      trades := tc.1
      cost := tc.2
      reason := reason
      before_weights := cur
      after_weights := tgt }
  (event,
   { r with
     rebalance_history := r.rebalance_history ++ [event]
     last_rebalance_date := some current_date })

/-- State-transformer view of analyze_drift: the Python method body
performs no assignment to self, so the embedding returns the receiver
state unchanged. -/
def analyze_driftS (r : PortfolioRebalancer) (cur tgt : Weights) (pv : ℚ) :
    Option DriftAnalysis × PortfolioRebalancer :=
  (analyze_drift r cur tgt pv, r)

/-- State-transformer view of should_rebalance: no assignment to self in
the source, so the receiver state is returned unchanged. -/
def should_rebalanceS (r : PortfolioRebalancer) (cur tgt : Weights)
    (current_date : ℤ) (mv pp : Option ℚ) :
    Option (Bool × Option RebalanceTrigger × String) × PortfolioRebalancer :=
  (should_rebalance r cur tgt current_date mv pp, r)

/-- State-transformer view of _generate_rebalance_trades: no assignment
to self in the source, so the receiver state is returned unchanged. -/
def generate_rebalance_tradesS (r : PortfolioRebalancer) (cur tgt : Weights)
    (pv : ℚ) : (List Trade × ℚ) × PortfolioRebalancer :=
  (generate_rebalance_trades r cur tgt pv, r)

/-- Price history for the backtest: a fixed column list and one row of
prices per date, aligned with the columns.  The embedding covers fully
populated frames, so the pd.isna checks of the source are always false
here; the membership test symbol in prices is membership in cols. -/
structure PriceData where
  cols : List Sym
  rows : List (ℤ × List ℚ)
deriving DecidableEq, Repr

/-- Lookup prices[symbol] in one row: some value iff the symbol is a
column of the frame. -/
def priceAt (cols : List Sym) (row : List ℚ) (s : Sym) : Option ℚ :=
  ((cols.zip row).find? (fun p => p.1 == s)).map Prod.snd

/-- Python dict assignment d[s] = v on an insertion-ordered dict:
overwrite in place, or append a new key. -/
def setW : Weights → Sym → ℚ → Weights
  | [], s, v => [(s, v)]
  | (a, b) :: rest, s, v =>
    if a == s then (s, v) :: rest else (a, b) :: setW rest s v

/-- Day-valuation loop of backtest_rebalancing (the body of the date
iteration that computes current_value and current_weights).  Note that
the source divides each value by the running total accumulated so far,
after the max guard against a tiny denominator, not by the final total. -/
def dayValueWeights (cols : List Sym) (row : List ℚ) (shares : Weights) :
    ℚ × Weights :=
  shares.foldl
    (fun acc sp =>
      match priceAt cols row sp.1 with
      | some p =>
        let value := sp.2 * p
        let cv := acc.1 + value
        (cv, acc.2 ++ [(sp.1, value / max cv (1 / 10 ^ 10))])
      | none => acc)
    ((0 : ℚ), ([] : Weights))

/-- Share reset after an executed rebalance inside the backtest loop. -/
def resetShares (cols : List Sym) (row : List ℚ) (tgt : Weights)
    (cv : ℚ) (shares : Weights) : Weights :=
  tgt.foldl
    (fun sh p =>
      match priceAt cols row p.1 with
      | some price => setW sh p.1 (cv * p.2 / price)
      | none => sh)
    shares

/-- Loop state of the backtest date iteration. -/
structure BTState where
  reb : PortfolioRebalancer
  shares : Weights
  values : List ℚ
  rebDates : List ℤ
  totalCosts : ℚ
deriving DecidableEq, Repr

/-- One date of the backtest loop: value the portfolio, consult
should_rebalance, and execute a rebalance when triggered and fewer than
100 rebalances are recorded in this run. -/
def btStep (cols : List Sym) (tgt : Weights) (st : BTState)
    (dr : ℤ × List ℚ) : Option BTState :=
  let vw := dayValueWeights cols dr.2 st.shares
  let values := st.values ++ [vw.1]
  match should_rebalance st.reb vw.2 tgt dr.1 none none with
  | none => none
  | some sr =>
    if sr.1 = true ∧ st.rebDates.length < 100 then
      let er := execute_rebalance st.reb vw.2 tgt vw.1
        "Backtest Portfolio" sr.2.1 sr.2.2 dr.1
      some { reb := er.2
             shares := resetShares cols dr.2 tgt vw.1 st.shares
             values := values
             rebDates := st.rebDates ++ [dr.1]
             totalCosts := st.totalCosts + er.1.cost }
    else
      some { st with values := values }

/-- The backtest date iteration over all rows. -/
def btLoop (cols : List Sym) (tgt : Weights) :
    BTState → List (ℤ × List ℚ) → Option BTState
  | st, [] => some st
  | st, row :: rest =>
    match btStep cols tgt st row with
    | none => none
    | some st1 => btLoop cols tgt st1 rest

/-- Initial share counts: for each target symbol present among the
columns, initial_value times weight over the first-row price. -/
def initialShares (cols : List Sym) (firstRow : List ℚ) (tgt : Weights)
    (iv : ℚ) : Weights :=
  tgt.filterMap (fun p =>
    (priceAt cols firstRow p.1).map (fun price => (p.1, iv * p.2 / price)))

/-- Buy-and-hold value series: the same initial shares, never reset. -/
def buyHoldValues (pd : PriceData) (firstRow : List ℚ) (tgt : Weights)
    (iv : ℚ) : List ℚ :=
  let ish := initialShares pd.cols firstRow tgt iv
  pd.rows.map (fun dr =>
    (ish.map (fun sp =>
      match priceAt pd.cols dr.2 sp.1 with
      | some p => sp.2 * p
      | none => 0)).sum)

/-- Fields of the backtest results dict that the claims read.  The purely
statistical entries of the source dict (annualized return, volatility,
Sharpe ratio, max drawdown) involve real powers and standard deviations of
the value series and are outside this embedding; no claim touches them. -/
structure BacktestResult where
  initial_value : ℚ
  final_value : ℚ
  total_return : ℚ
  num_rebalances : ℕ
  total_costs : ℚ
  cost_drag : ℚ
  rebalance_dates : List ℤ
  portfolio_values : List ℚ
  buy_hold_values : List ℚ
  buy_hold_return : ℚ
  excess_return : ℚ
deriving DecidableEq, Repr

/-- PortfolioRebalancer.backtest_rebalancing on the default start and end
dates (the whole frame).  Returns none exactly where the source raises:
on an empty frame (indexing the first or last element fails) or when the
loop raises inside should_rebalance. -/
def backtest_rebalancing (r : PortfolioRebalancer) (pd : PriceData)
    (tgt : Weights) (iv : ℚ) : Option BacktestResult :=
  match pd.rows with
  | [] => none
  | first :: _ =>
    let ish := initialShares pd.cols first.2 tgt iv
    match btLoop pd.cols tgt ⟨r, ish, [], [], 0⟩ pd.rows with
    | none => none
    | some st =>
      let bh := buyHoldValues pd first.2 tgt iv
      match st.values.getLast?, bh.getLast? with
      | some fv, some bhLast =>
        some { initial_value := iv
               final_value := fv
               total_return := fv / iv - 1
               num_rebalances := st.rebDates.length
               total_costs := st.totalCosts
               cost_drag := st.totalCosts / iv
               rebalance_dates := st.rebDates
               portfolio_values := st.values
               buy_hold_values := bh
               buy_hold_return := bhLast / iv - 1
               excess_return := (fv / iv - 1) - (bhLast / iv - 1) }
      | _, _ => none

/-!
Embedding of the optimizer (src/portfolio/optimizer.py).  A returns
DataFrame is a list of equal-length columns, one per asset, aligned with
the weight vector.  The not-a-number and non-finite float outcomes of the
source (a pandas statistic over too few observations, a square root or a
quotient of such a value) are modelled by none; everywhere the source
returns an ordinary finite float the embedding returns some rational.
The float square root is modelled by the exact rational square root,
which agrees with it at every value the theorems below evaluate.
-/

/-- Addition of possibly non-finite values: any none operand contaminates
the result, as not-a-number does in float arithmetic. -/
def optAdd : Option ℚ → Option ℚ → Option ℚ
  | some a, some b => some (a + b)
  | _, _ => none

/-- Sum of a list of possibly non-finite values: any none contaminates
the sum, as not-a-number does in float arithmetic. -/
def optSum : List (Option ℚ) → Option ℚ
  | [] => some 0
  | x :: xs => optAdd x (optSum xs)

/-- Mean of a pandas Series: not-a-number on an empty series. -/
def seriesMean (xs : List ℚ) : Option ℚ :=
  if xs.length = 0 then none else some (xs.sum / xs.length)

/-- Sample variance with one delta degree of freedom, as pandas uses for
std and cov: not-a-number on fewer than two observations. -/
def sampleVar (xs : List ℚ) : Option ℚ :=
  if xs.length < 2 then none
  else
    let μ := xs.sum / xs.length
    some (((xs.map (fun x => (x - μ) ^ 2)).sum) / (xs.length - 1))

/-- Sample standard deviation of a pandas Series. -/
def seriesStd (xs : List ℚ) : Option ℚ :=
  (sampleVar xs).map Rat.sqrt

/-- Pairwise covariance entry of DataFrame.cov with one delta degree of
freedom: not-a-number on fewer than two observations. -/
def pairCov (xs ys : List ℚ) : Option ℚ :=
  if xs.length < 2 then none
  else
    let μx := xs.sum / xs.length
    let μy := ys.sum / ys.length
    some ((((xs.zip ys).map (fun p => (p.1 - μx) * (p.2 - μy))).sum) /
      (xs.length - 1))

/-- Weighted portfolio return series (returns times weights, summed per
row), as built by calculate_var and the Monte Carlo simulator.  Columns
are aligned with the weight vector. -/
def portfolioReturns (cols : List (List ℚ)) (w : List ℚ) (nrows : ℕ) :
    List ℚ :=
  (List.range nrows).map (fun i =>
    ((cols.zip w).map (fun cw => (cw.1.getD i 0) * cw.2)).sum)

/-- PortfolioOptimizer.calculate_var.  The scalar zConf stands for the
double-precision value of the Gaussian quantile norm.ppf at the given
confidence level; the function is affine in it and the theorems below do
not depend on its value.  Returns none where the source produces a
not-a-number, namely when the series has fewer than two observations. -/
def calculate_var (cols : List (List ℚ)) (w : List ℚ) (nrows : ℕ)
    (zConf : ℚ) (time_horizon : ℕ) : Option ℚ :=
  let pr := portfolioReturns cols w nrows
  match seriesStd pr, seriesMean pr with
  | some σ, some μ =>
    let portfolio_std := σ * Rat.sqrt time_horizon
    let portfolio_mean := μ * time_horizon
    some (-(zConf * portfolio_std + portfolio_mean))
  | _, _ => none

/-- Row i of the annualized covariance matrix contracted with the weight
vector, with not-a-number propagation. -/
def covRowDot (ci : List ℚ) (cols : List (List ℚ)) (w : List ℚ) : Option ℚ :=
  optSum ((cols.zip w).map (fun cjw =>
    (pairCov ci cjw.1).map (fun c => c * 252 * cjw.2)))

/-- Sharpe ratio step of calculate_portfolio_metrics: the excess return
over the volatility, with a none result standing for a non-finite float
(a quotient by a zero or not-a-number volatility, or a not-a-number
numerator). -/
def sharpeOf (ret vol : Option ℚ) (risk_free_rate : ℚ) : Option ℚ :=
  match ret, vol with
  | some r, some v => if v = 0 then none else some ((r - risk_free_rate) / v)
  | _, _ => none

/-- PortfolioOptimizer.calculate_portfolio_metrics: annualized expected
return, volatility and Sharpe ratio of given weights.  The source
performs no validation whatsoever; with too little data the pandas
statistics are not-a-number and the function still returns a triple. -/
def calculate_portfolio_metrics (w : List ℚ) (cols : List (List ℚ))
    (risk_free_rate : ℚ) : Option ℚ × Option ℚ × Option ℚ :=
  let portfolio_return := optSum ((cols.zip w).map (fun cw =>
    (seriesMean cw.1).map (fun m => m * 252 * cw.2)))
  let portfolio_variance := optSum ((cols.zip w).map (fun cw =>
    (covRowDot cw.1 cols w).map (fun rowdot => rowdot * cw.2)))
  let portfolio_volatility := portfolio_variance.map Rat.sqrt
  (portfolio_return, portfolio_volatility,
   sharpeOf portfolio_return portfolio_volatility risk_free_rate)

/-!
Helper lemmas shared by the claim theorems.
-/

theorem uniqKeepFirst_ne_nil (l : List Sym) (h : l ≠ []) :
    uniqKeepFirst l ≠ [] := by
  cases l with
  | nil => exact absurd rfl h
  | cons s rest => simp [uniqKeepFirst, uniqAux]

theorem mkStockDrift_self (w : Weights) (s : Sym) :
    mkStockDrift w w s =
      { current_weight := lookupW w s
        target_weight := lookupW w s
        drift := 0
        drift_percent := 0 } := by
  unfold mkStockDrift
  simp

theorem foldl_max_zero (l : List ℚ) (h : ∀ x ∈ l, x = 0) :
    l.foldl max 0 = 0 := by
  induction l with
  | nil => rfl
  | cons x xs ih =>
    have hx : x = 0 := h x (by simp)
    simp only [List.foldl_cons, hx, max_self]
    exact ih (fun y hy => h y (by simp [hy]))

theorem maxQ_zeros (l : List ℚ) (hne : l ≠ []) (h : ∀ x ∈ l, x = 0) :
    maxQ l = some 0 := by
  cases l with
  | nil => exact absurd rfl hne
  | cons x xs =>
    have hx : x = 0 := h x (by simp)
    simp only [maxQ, hx]
    exact congrArg some (foldl_max_zero xs (fun y hy => h y (by simp [hy])))

/-- Drift analysis of a portfolio already at its target: every per-symbol
drift is zero, so the analysis is the neutral result, provided the weight
map is nonempty (else the source raises) and the threshold is not
negative (else a zero maximal drift percent still exceeds it). -/
theorem analyze_drift_self (r : PortfolioRebalancer) (w : Weights) (pv : ℚ)
    (hw : w ≠ []) (hth : 0 ≤ r.config.threshold_percent) :
    ∃ da, analyze_drift r w w pv = some da ∧ da.total_drift = 0 ∧
      da.rebalance_needed = false ∧ da.suggested_trades = [] ∧
      da.estimated_cost = 0 := by
  have hsyms : unionSyms w w ≠ [] := by
    apply uniqKeepFirst_ne_nil
    cases w with
    | nil => exact absurd rfl hw
    | cons p rest => simp
  have hdp : ∀ x ∈ ((unionSyms w w).map
      (fun s => (s, mkStockDrift w w s))).map (fun e => e.2.drift_percent),
      x = 0 := by
    intro x hx
    simp only [List.map_map, List.mem_map, Function.comp] at hx
    obtain ⟨s, _, hs⟩ := hx
    rw [mkStockDrift_self] at hs
    exact hs.symm
  have hmax : maxQ (((unionSyms w w).map
      (fun s => (s, mkStockDrift w w s))).map (fun e => e.2.drift_percent)) =
      some 0 := by
    apply maxQ_zeros _ _ hdp
    simpa using hsyms
  have hneed : ¬ ((0 : ℚ) > r.config.threshold_percent) := not_lt.mpr hth
  have htot : (((unionSyms w w).map
      (fun s => (s, mkStockDrift w w s))).map (fun e => e.2.drift)).sum = 0 := by
    apply List.sum_eq_zero
    intro x hx
    simp only [List.map_map, List.mem_map, Function.comp] at hx
    obtain ⟨s, _, hs⟩ := hx
    rw [mkStockDrift_self] at hs
    exact hs.symm
  unfold analyze_drift
  simp only [hmax]
  exact ⟨_, rfl, by simpa using htot, by exact decide_eq_false hneed,
    by rw [if_neg hneed], by rw [if_neg hneed]⟩

/-!
Claim C5.
-/

/-- C5 counterexample: on the empty weight map, analyze_drift does not
return a neutral result; the max over the empty stock_drifts dict raises
ValueError, modelled as none. -/
theorem c5_counterexample :
    analyze_drift freshRebalancer [] [] 1000 = none := by decide

/-- C5 (amended): for every NONEMPTY weight map w, every portfolio value
and every rebalancer whose threshold_percent is not negative,
analyze_drift of w against itself returns normally with total_drift 0,
rebalance_needed false, no suggested trades and zero estimated cost; the
empty weight map instead raises. -/
theorem c5_no_drift_neutral (r : PortfolioRebalancer) (w : Weights) (pv : ℚ)
    (hw : w ≠ []) (hth : 0 ≤ r.config.threshold_percent) :
    ∃ da, analyze_drift r w w pv = some da ∧ da.total_drift = 0 ∧
      da.rebalance_needed = false ∧ da.suggested_trades = [] ∧
      da.estimated_cost = 0 :=
  analyze_drift_self r w pv hw hth

/-- C5 witness: the amended theorem evaluated on a concrete one-symbol
map and the default configuration. -/
theorem c5_witness :
    ∃ da, analyze_drift freshRebalancer [("A", 1)] [("A", 1)] 500 = some da ∧
      da.total_drift = 0 ∧ da.rebalance_needed = false ∧
      da.suggested_trades = [] ∧ da.estimated_cost = 0 :=
  c5_no_drift_neutral freshRebalancer [("A", 1)] 500 (by decide) (by decide)

/-!
Claim C8.
-/

/-- C8: execute_rebalance appends exactly one new event at the end of the
history, leaving every previously recorded event in place, and moves
last_rebalance_date to the given date while the configuration is
untouched; and the read-only operations analyze_drift, should_rebalance
and trade generation leave the rebalancer state unchanged. -/
theorem c8_execute_frame (r : PortfolioRebalancer) (cw tw : Weights)
    (pv : ℚ) (name : String) (trig : Option RebalanceTrigger)
    (reason : String) (d : ℤ) :
    (execute_rebalance r cw tw pv name trig reason d).2.rebalance_history =
      r.rebalance_history ++ [(execute_rebalance r cw tw pv name trig reason d).1] ∧
    (execute_rebalance r cw tw pv name trig reason d).2.rebalance_history.take
      r.rebalance_history.length = r.rebalance_history ∧
    (execute_rebalance r cw tw pv name trig reason d).2.rebalance_history.length =
      r.rebalance_history.length + 1 ∧
    (execute_rebalance r cw tw pv name trig reason d).2.last_rebalance_date =
      some d ∧
    (execute_rebalance r cw tw pv name trig reason d).2.config = r.config ∧
    (∀ cw2 tw2 pv2, (analyze_driftS r cw2 tw2 pv2).2 = r) ∧
    (∀ cw2 tw2 d2 mv pp, (should_rebalanceS r cw2 tw2 d2 mv pp).2 = r) ∧
    (∀ cw2 tw2 pv2, (generate_rebalance_tradesS r cw2 tw2 pv2).2 = r) := by
  refine ⟨rfl, ?_, by simp [execute_rebalance], rfl, rfl,
    fun _ _ _ => rfl, fun _ _ _ _ _ => rfl, fun _ _ _ => rfl⟩
  simp [execute_rebalance, List.take_left]

/-!
Claim C6.
-/

/-- C6: with a Monthly frequency and a recorded last rebalance at day D,
should_rebalance declines at D plus 29 days and fires the Scheduled
trigger at D plus 30 days (given weights at target, a nonnegative drift
threshold, and no volatility or performance signal, so that no other
trigger interferes); and in general the scheduled condition holds iff the
last rebalance date is unset or the whole-day difference reaches the
mapped frequency days, the mapping being Daily 1, Weekly 7, Monthly 30,
Quarterly 90, SemiAnnual 180, Annual 365. -/
theorem c6_scheduled_trigger :
    (∀ (r : PortfolioRebalancer) (D : ℤ) (w : Weights),
      r.config.frequency = .monthly → r.last_rebalance_date = some D →
      w ≠ [] → 0 ≤ r.config.threshold_percent →
      should_rebalance r w w (D + 29) none none =
        some (false, none, "No rebalancing needed") ∧
      should_rebalance r w w (D + 30) none none =
        some (true, some .scheduled, "Scheduled Monthly rebalancing")) ∧
    (∀ (r : PortfolioRebalancer) (d : ℤ),
      is_scheduled_rebalance_due r d = true ↔
        (r.last_rebalance_date = none ∨
         ∃ L, r.last_rebalance_date = some L ∧
           frequencyDays r.config.frequency ≤ d - L)) ∧
    (frequencyDays .daily = 1 ∧ frequencyDays .weekly = 7 ∧
     frequencyDays .monthly = 30 ∧ frequencyDays .quarterly = 90 ∧
     frequencyDays .semiAnnual = 180 ∧ frequencyDays .annual = 365) := by
  refine ⟨?_, ?_, rfl, rfl, rfl, rfl, rfl, rfl⟩
  · intro r D w hf hl hw hth
    have h29 : is_scheduled_rebalance_due r (D + 29) = false := by
      unfold is_scheduled_rebalance_due
      rw [hl, hf]
      simp only [frequencyDays, ge_iff_le, decide_eq_false_iff_not, not_le]
      omega
    have h30 : is_scheduled_rebalance_due r (D + 30) = true := by
      unfold is_scheduled_rebalance_due
      rw [hl, hf]
      simp only [frequencyDays, ge_iff_le, decide_eq_true_eq]
      omega
    obtain ⟨da, hda, _, hneed, _, _⟩ := analyze_drift_self r w 100000 hw hth
    constructor
    · unfold should_rebalance
      rw [h29, hda]
      simp [hneed, volGuard, perfGuard]
    · unfold should_rebalance
      rw [h30, hf]
      simp [freqValue]
  · intro r d
    unfold is_scheduled_rebalance_due
    cases hl : r.last_rebalance_date with
    | none => simp
    | some L => simp [ge_iff_le]

/-- C6 witness: the scheduled part of the theorem evaluated at the
default Monthly configuration with last rebalance at day 0 and a single
on-target symbol. -/
theorem c6_witness :
    should_rebalance ⟨defaultConfig, [], some 0⟩ [("A", 1)] [("A", 1)]
      (0 + 29) none none = some (false, none, "No rebalancing needed") ∧
    should_rebalance ⟨defaultConfig, [], some 0⟩ [("A", 1)] [("A", 1)]
      (0 + 30) none none =
      some (true, some .scheduled, "Scheduled Monthly rebalancing") :=
  c6_scheduled_trigger.1 ⟨defaultConfig, [], some 0⟩ 0 [("A", 1)]
    rfl rfl (by decide) (by decide)

/-!
Claim C10.
-/

/-- C10: a zero volatility (respectively performance) signal can never
fire the Volatility (respectively Performance) trigger in
should_rebalance, for every configuration, because the source tests
truthiness before comparing and 0.0 is falsy; this holds even when the
corresponding threshold is negative, in which case 0.0 would exceed it. -/
theorem c10_zero_signal_never_triggers :
    (∀ (r : PortfolioRebalancer) (cw tw : Weights) (d : ℤ) (pp : Option ℚ)
      (res : Bool × Option RebalanceTrigger × String),
      should_rebalance r cw tw d (some 0) pp = some res →
      res.2.1 ≠ some RebalanceTrigger.volatility) ∧
    (∀ (r : PortfolioRebalancer) (cw tw : Weights) (d : ℤ) (mv : Option ℚ)
      (res : Bool × Option RebalanceTrigger × String),
      should_rebalance r cw tw d mv (some 0) = some res →
      res.2.1 ≠ some RebalanceTrigger.performance) := by
  constructor
  · intro r cw tw d pp res h
    unfold should_rebalance at h
    split at h
    · injection h with h1; subst h1; simp
    · split at h
      · exact Option.noConfusion h
      · split at h
        · injection h with h1; subst h1; simp
        · split at h
          · rename_i hguard
            simp [volGuard] at hguard
          · split at h
            · injection h with h1; subst h1; simp
            · injection h with h1; subst h1; simp
  · intro r cw tw d mv res h
    unfold should_rebalance at h
    split at h
    · injection h with h1; subst h1; simp
    · split at h
      · exact Option.noConfusion h
      · split at h
        · injection h with h1; subst h1; simp
        · split at h
          · injection h with h1; subst h1; simp
          · split at h
            · rename_i hguard
              simp [perfGuard] at hguard
            · injection h with h1; subst h1; simp

/-- A rebalancer whose volatility and performance thresholds are
negative, so that a zero signal would exceed both thresholds. -/
def negThresholdRebalancer : PortfolioRebalancer where
  config :=
    { defaultConfig with
      volatility_threshold := -1
      performance_threshold := -1 }
  rebalance_history := []
  last_rebalance_date := some 0

/-- C10 witness: the theorem applied to a configuration with negative
volatility and performance thresholds, where a zero signal would exceed
both thresholds and yet neither trigger fires. -/
theorem c10_witness :
    ((false, (none : Option RebalanceTrigger), "No rebalancing needed") :
      Bool × Option RebalanceTrigger × String).2.1 ≠
      some RebalanceTrigger.volatility ∧
    ((false, (none : Option RebalanceTrigger), "No rebalancing needed") :
      Bool × Option RebalanceTrigger × String).2.1 ≠
      some RebalanceTrigger.performance :=
  ⟨c10_zero_signal_never_triggers.1 negThresholdRebalancer
      [("A", 1)] [("A", 1)] 1 (some 0)
      (false, none, "No rebalancing needed")
      (by norm_num +decide [should_rebalance, is_scheduled_rebalance_due,
        analyze_drift, mkStockDrift, maxQ, unionSyms, uniqKeepFirst, uniqAux,
        lookupW, volGuard, perfGuard, negThresholdRebalancer, defaultConfig,
        abs_of_nonneg, abs_of_nonpos]),
   c10_zero_signal_never_triggers.2 negThresholdRebalancer
      [("A", 1)] [("A", 1)] 1 none
      (false, none, "No rebalancing needed")
      (by norm_num +decide [should_rebalance, is_scheduled_rebalance_due,
        analyze_drift, mkStockDrift, maxQ, unionSyms, uniqKeepFirst, uniqAux,
        lookupW, volGuard, perfGuard, negThresholdRebalancer, defaultConfig,
        abs_of_nonneg, abs_of_nonpos])⟩

/-!
Claim C1.
-/

/-- C1: the backtest day valuation does compute the portfolio value as
the sum of shares times prices, but it records each held symbol weight as
the symbol value divided by the RUNNING total accumulated so far, not by
the total portfolio value of the date: with shares A 50, B 100 and prices
A 110, B 48, the value is 10300 yet the recorded weight of A is 1, not
5500 over 10300, and the recorded weights sum to 151 over 103, not 1. -/
theorem c1_weights_divided_by_running_total :
    dayValueWeights ["A", "B"] [110, 48] [("A", 50), ("B", 100)] =
      (10300, [("A", 1), ("B", 48/103)]) ∧
    (10300 : ℚ) = 50 * 110 + 100 * 48 ∧
    ((1 : ℚ) ≠ 5500 / 10300) ∧
    ((1 : ℚ) + 48/103 ≠ 1) := by
  norm_num +decide [dayValueWeights, priceAt, max_def]

/-!
Claim C2.
-/

/-- Price frame of the two-asset three-day scenario. -/
def c2Data : PriceData :=
  ⟨["A", "B"], [(0, [100, 50]), (1, [110, 48]), (2, [105, 52])]⟩

/-- Target weights of the two-asset three-day scenario. -/
def c2Weights : Weights := [("A", 1/2), ("B", 1/2)]

/-- Trade generated by the day-1 scheduled rebalance of the scenario. -/
def c2tradeA0 : Trade := ⟨"A", "SELL", 1, 1/2, 5000, 1/2⟩

/-- Event recorded by the day-1 scheduled rebalance of the scenario. -/
def c2ev0 : RebalanceEvent :=
  ⟨0, some .scheduled, "Backtest Portfolio", [c2tradeA0], 5,
   "Scheduled Monthly rebalancing", [("A", 1), ("B", 1/2)], c2Weights⟩

/-- Rebalancer state after day 1 of the scenario. -/
def c2r1 : PortfolioRebalancer := ⟨defaultConfig, [c2ev0], some 0⟩

/-- Backtest loop state after day 1 of the scenario. -/
def c2st1 : BTState :=
  ⟨c2r1, [("A", 50), ("B", 100)], [10000], [0], 5⟩

/-- First trade of the day-2 threshold rebalance of the scenario. -/
def c2tradeA1 : Trade := ⟨"A", "SELL", 1, 1/2, 5150, 1/2⟩

/-- Second trade of the day-2 threshold rebalance of the scenario. -/
def c2tradeB1 : Trade := ⟨"B", "BUY", 48/103, 1/2, 350, 7/206⟩

/-- Event recorded by the day-2 threshold rebalance of the scenario. -/
def c2ev1 : RebalanceEvent :=
  ⟨1, some .threshold, "Backtest Portfolio", [c2tradeA1, c2tradeB1], 11/2,
   "Drift threshold exceeded", [("A", 1), ("B", 48/103)], c2Weights⟩

/-- Rebalancer state after day 2 of the scenario. -/
def c2r2 : PortfolioRebalancer := ⟨defaultConfig, [c2ev0, c2ev1], some 1⟩

/-- Backtest loop state after day 2 of the scenario. -/
def c2st2 : BTState :=
  ⟨c2r2, [("A", 515/11), ("B", 2575/24)], [10000, 10300], [0, 1], 21/2⟩

/-- First trade of the day-3 threshold rebalance of the scenario. -/
def c2tradeA2 : Trade := ⟨"A", "SELL", 1, 1/2, 692675/132, 1/2⟩

/-- Second trade of the day-3 threshold rebalance of the scenario. -/
def c2tradeB2 : Trade := ⟨"B", "SELL", 143/269, 1/2, 43775/132, 17/538⟩

/-- Event recorded by the day-3 threshold rebalance of the scenario. -/
def c2ev2 : RebalanceEvent :=
  ⟨2, some .threshold, "Backtest Portfolio", [c2tradeA2, c2tradeB2], 14729/2640,
   "Drift threshold exceeded", [("A", 1), ("B", 143/269)], c2Weights⟩

/-- Rebalancer state after day 3 of the scenario. -/
def c2r3 : PortfolioRebalancer := ⟨defaultConfig, [c2ev0, c2ev1, c2ev2], some 2⟩

/-- Backtest loop state after day 3 of the scenario. -/
def c2st3 : BTState :=
  ⟨c2r3, [("A", 692675/13860), ("B", 692675/6864)],
   [10000, 10300, 692675/66], [0, 1, 2], 3859/240⟩

/-- Results record of the backtest on the scenario. -/
def c2res : BacktestResult :=
  ⟨10000, 692675/66, 1307/26400, 3, 3859/240, 3859/2400000, [0, 1, 2],
   [10000, 10300, 692675/66], [10000, 10300, 10450], 9/200, 119/26400⟩

/-- Evaluation of the backtest on the two-asset three-day scenario with a
fresh default rebalancer, proved one simulated day at a time. -/
theorem c2_run : backtest_rebalancing freshRebalancer c2Data c2Weights 10000 =
    some c2res := by
  have hstep0 : btStep ["A", "B"] c2Weights
      ⟨freshRebalancer, [("A", 50), ("B", 100)], [], [], 0⟩ (0, [100, 50]) =
      some c2st1 := by
    norm_num +decide [btStep, dayValueWeights, should_rebalance,
      is_scheduled_rebalance_due, analyze_drift, mkStockDrift, maxQ,
      execute_rebalance, resetShares, setW,
      generate_rebalance_trades, tradeFor, tradeCost, sortDesc, insertDesc,
      pySliceTo, unionSyms, uniqKeepFirst, uniqAux, lookupW, priceAt, max_def,
      defaultConfig, freshRebalancer, c2Weights, freqValue, List.filterMap_cons,
      c2st1, c2r1, c2ev0, c2tradeA0, abs_of_nonneg, abs_of_nonpos]
  have hstep1 : btStep ["A", "B"] c2Weights c2st1 (1, [110, 48]) =
      some c2st2 := by
    norm_num +decide [btStep, dayValueWeights, should_rebalance,
      is_scheduled_rebalance_due, analyze_drift, mkStockDrift, maxQ,
      execute_rebalance, resetShares, setW,
      generate_rebalance_trades, tradeFor, tradeCost, sortDesc, insertDesc,
      pySliceTo, unionSyms, uniqKeepFirst, uniqAux, lookupW, priceAt, max_def,
      defaultConfig, c2Weights, freqValue, List.filterMap_cons,
      c2st1, c2st2, c2r1, c2r2, c2ev0, c2ev1, c2tradeA0, c2tradeA1, c2tradeB1,
      abs_of_nonneg, abs_of_nonpos]
  have hstep2 : btStep ["A", "B"] c2Weights c2st2 (2, [105, 52]) =
      some c2st3 := by
    norm_num +decide [btStep, dayValueWeights, should_rebalance,
      is_scheduled_rebalance_due, analyze_drift, mkStockDrift, maxQ,
      execute_rebalance, resetShares, setW,
      generate_rebalance_trades, tradeFor, tradeCost, sortDesc, insertDesc,
      pySliceTo, unionSyms, uniqKeepFirst, uniqAux, lookupW, priceAt, max_def,
      defaultConfig, c2Weights, freqValue, List.filterMap_cons,
      c2st2, c2st3, c2r2, c2r3, c2ev0, c2ev1, c2ev2, c2tradeA0, c2tradeA1,
      c2tradeB1, c2tradeA2, c2tradeB2, abs_of_nonneg, abs_of_nonpos]
  have hish : initialShares ["A", "B"] [100, 50] c2Weights 10000 =
      [("A", 50), ("B", 100)] := by
    norm_num +decide [initialShares, priceAt, c2Weights, List.filterMap_cons]
  have hbh : buyHoldValues
      ⟨["A", "B"], [(0, [100, 50]), (1, [110, 48]), (2, [105, 52])]⟩
      [100, 50] c2Weights 10000 = [10000, 10300, 10450] := by
    norm_num +decide [buyHoldValues, initialShares, priceAt, c2Weights,
      List.filterMap_cons]
  have hloop : btLoop ["A", "B"] c2Weights
      ⟨freshRebalancer, [("A", 50), ("B", 100)], [], [], 0⟩
      [(0, [100, 50]), (1, [110, 48]), (2, [105, 52])] = some c2st3 := by
    simp only [btLoop, hstep0, hstep1, hstep2]
  simp only [backtest_rebalancing, c2Data, hish, hloop, hbh]
  norm_num [c2res, c2st3, c2r3, List.getLast?]

/-- C2 counterexample: with a fresh default rebalancer the backtest on the
scenario records the day-3 portfolio value 692675 over 66 (about
10495.08), not 10450 as claimed, because a drift-triggered rebalance
executes on day 2 and resets the share counts. -/
theorem c2_counterexample :
    (backtest_rebalancing freshRebalancer c2Data c2Weights 10000).map
      (fun res => res.portfolio_values) =
      some [10000, 10300, 692675/66] ∧
    (692675 : ℚ)/66 ≠ 10450 := by
  rw [c2_run]
  norm_num [c2res]

/-- C2 (amended): on the scenario the initial share counts are A 50 and
B 100, the recorded values are 10000, 10300 and 692675 over 66 (the
day-3 value reflects the day-2 threshold rebalance; 10450 is the
buy-and-hold day-3 value), and the buy-and-hold return over the window is
9 over 200, that is 4.5 percent. -/
theorem c2_scenario_values :
    initialShares c2Data.cols [100, 50] c2Weights 10000 =
      [("A", 50), ("B", 100)] ∧
    (backtest_rebalancing freshRebalancer c2Data c2Weights 10000).map
      (fun res => (res.portfolio_values, res.buy_hold_values,
        res.buy_hold_return)) =
      some ([10000, 10300, 692675/66], [10000, 10300, 10450], 9/200) := by
  rw [c2_run]
  constructor
  · norm_num +decide [initialShares, priceAt, c2Data, c2Weights,
      List.filterMap_cons]
  · norm_num [c2res]

/-!
Claim C3.
-/

/-- Square root of the zero rational is zero. -/
theorem ratSqrt_zero : Rat.sqrt 0 = 0 := by
  have h := Rat.sqrt_eq 0
  rw [mul_zero] at h
  rw [h, abs_zero]

/-- C3 counterexample: a zero-variance weighted return series with
constant return 1 over 100 makes calculate_var return minus 1 over 100,
not 0 (the Gaussian quantile is multiplied by the zero standard
deviation, leaving minus the scaled mean). -/
theorem c3_counterexample :
    calculate_var [[1/100, 1/100]] [1] 2
      (-16448536269514722/10000000000000000) 1 = some (-(1/100)) ∧
    some (-(1/100) : ℚ) ≠ some (0 : ℚ) := by
  have hr : List.range 2 = [0, 1] := by decide
  norm_num +decide [calculate_var, portfolioReturns, seriesStd, seriesMean,
    sampleVar, hr, ratSqrt_zero, List.getD]

/-- C3 (amended): on every returns table and weight vector whose weighted
portfolio return series has zero variance, calculate_var returns normally
with the value minus mean times horizon, for every Gaussian quantile
value and every time horizon; the result is 0 exactly when the mean of
the series is 0, not in general. -/
theorem c3_zero_variance_var (cols : List (List ℚ)) (w : List ℚ)
    (nrows : ℕ) (z : ℚ) (h : ℕ) (μ : ℚ)
    (hstd : seriesStd (portfolioReturns cols w nrows) = some 0)
    (hmean : seriesMean (portfolioReturns cols w nrows) = some μ) :
    calculate_var cols w nrows z h = some (-(μ * h)) := by
  unfold calculate_var
  simp only [hstd, hmean]
  norm_num

/-- C3 witness: the amended theorem evaluated on a constant series with
mean 3 over 100 and horizon 2. -/
theorem c3_witness :
    calculate_var [[3/100, 3/100, 3/100]] [1] 3 (-2) 2 =
      some (-((3/100) * 2)) :=
  c3_zero_variance_var [[3/100, 3/100, 3/100]] [1] 3 (-2) 2 (3/100)
    (by
      have hr : List.range 3 = [0, 1, 2] := by decide
      norm_num +decide [portfolioReturns, seriesStd, seriesMean, sampleVar,
        hr, ratSqrt_zero, List.getD])
    (by
      have hr : List.range 3 = [0, 1, 2] := by decide
      norm_num +decide [portfolioReturns, seriesMean, hr, List.getD])

/-!
Claim C9.
-/

/-- Any none in the list contaminates the not-a-number propagating sum. -/
theorem optSum_cons_none (xs : List (Option ℚ)) :
    optSum (none :: xs) = none := rfl

/-- A not-a-number volatility makes the Sharpe ratio non-finite. -/
theorem sharpeOf_vol_none (ret : Option ℚ) (rf : ℚ) :
    sharpeOf ret none rf = none := by
  cases ret <;> rfl

/-- C9 counterexample: on a single-period two-asset returns table the
metrics computation does not fail with InsufficientDataError (no such
validation or exception exists in the source); it silently returns a
numeric expected return together with not-a-number volatility and Sharpe
ratio. -/
theorem c9_counterexample :
    calculate_portfolio_metrics [1/2, 1/2] [[1/100], [2/100]] (1/50) =
      (some (189/50), none, none) := by
  norm_num +decide [calculate_portfolio_metrics, covRowDot, pairCov,
    seriesMean, optSum, optAdd, sharpeOf]

/-- C9 (amended): with fewer than 2 return periods the source performs no
insufficient-data validation at all: calculate_portfolio_metrics returns
normally, with not-a-number volatility and Sharpe ratio (the covariance
entries are not-a-number), instead of raising InsufficientDataError. -/
theorem c9_single_period_returns_nan (w : List ℚ) (cols : List (List ℚ))
    (rf : ℚ) (hc : ∀ c ∈ cols, c.length = 1) (hcne : cols ≠ [])
    (hwne : w ≠ []) :
    (calculate_portfolio_metrics w cols rf).2.1 = none ∧
    (calculate_portfolio_metrics w cols rf).2.2 = none := by
  obtain ⟨c0, cs, rfl⟩ := List.exists_cons_of_ne_nil hcne
  obtain ⟨w0, ws, rfl⟩ := List.exists_cons_of_ne_nil hwne
  have hcov0 : pairCov c0 c0 = none := by
    unfold pairCov
    rw [hc c0 (by simp)]
    norm_num
  have hrow : covRowDot c0 (c0 :: cs) (w0 :: ws) = none := by
    unfold covRowDot
    simp only [List.zip_cons_cons, List.map_cons, hcov0, Option.map_none']
    exact optSum_cons_none _
  unfold calculate_portfolio_metrics
  simp only [List.zip_cons_cons, List.map_cons, hrow, Option.map_none',
    optSum_cons_none, sharpeOf_vol_none]
  exact ⟨trivial, trivial⟩

/-- C9 witness: the amended theorem evaluated on the concrete one-period
two-asset table. -/
theorem c9_witness :
    (calculate_portfolio_metrics [1/2, 1/2] [[1/100], [2/100]] 0).2.1 =
      none ∧
    (calculate_portfolio_metrics [1/2, 1/2] [[1/100], [2/100]] 0).2.2 =
      none :=
  c9_single_period_returns_nan [1/2, 1/2] [[1/100], [2/100]] 0
    (by decide) (by decide) (by decide)

/-!
Claim C4.
-/

/-- The returned trades are in weakly decreasing dollar-amount order. -/
def sortedDesc (l : List Trade) : Prop :=
  l.Chain' (fun a b => b.trade_amount ≤ a.trade_amount)

theorem insertDesc_perm (t : Trade) (l : List Trade) :
    List.Perm (insertDesc t l) (t :: l) := by
  induction l with
  | nil => rfl
  | cons u us ih =>
    unfold insertDesc
    split
    · rfl
    · exact (ih.cons u).trans (List.Perm.swap t u us)

theorem sortDesc_perm (l : List Trade) : List.Perm (sortDesc l) l := by
  induction l with
  | nil => rfl
  | cons t ts ih => exact (insertDesc_perm t (sortDesc ts)).trans (ih.cons t)

theorem insertDesc_head (t : Trade) (l : List Trade) :
    (insertDesc t l).head? = some t ∨ (insertDesc t l).head? = l.head? := by
  cases l with
  | nil => left; rfl
  | cons u us =>
    unfold insertDesc
    split
    · left; rfl
    · right; rfl

theorem insertDesc_chain (t : Trade) :
    ∀ l : List Trade, sortedDesc l → sortedDesc (insertDesc t l) := by
  intro l
  induction l with
  | nil => intro _; simp [insertDesc, sortedDesc]
  | cons u us ih =>
    intro h
    unfold sortedDesc at h ⊢
    unfold insertDesc
    split
    · rename_i hle
      exact List.chain'_cons.mpr ⟨hle, h⟩
    · rename_i hgt
      rw [List.chain'_cons'] at h
      refine List.chain'_cons'.mpr ⟨?_, ih h.2⟩
      intro y hy
      rcases insertDesc_head t us with hh | hh
      · rw [hh] at hy
        simp only [Option.mem_def, Option.some.injEq] at hy
        subst hy
        exact le_of_lt (lt_of_not_le hgt)
      · rw [hh] at hy
        exact h.1 y hy

theorem sortDesc_sorted (l : List Trade) : sortedDesc (sortDesc l) := by
  induction l with
  | nil => simp [sortDesc, sortedDesc]
  | cons t ts ih => exact insertDesc_chain t (sortDesc ts) ih

theorem tradeFor_amount {cfg : RebalanceConfig} {cur tgt : Weights}
    {pv : ℚ} {s : Sym} {t : Trade} (h : tradeFor cfg cur tgt pv s = some t) :
    cfg.min_trade_amount ≤ t.trade_amount := by
  simp only [tradeFor] at h
  split at h
  · rename_i hge
    injection h with h1
    subst h1
    exact hge
  · exact Option.noConfusion h

theorem pySliceTo_eq_take (l : List Trade) (n : ℤ) :
    pySliceTo l n =
      l.take (if 0 ≤ n then n.toNat else l.length - (-n).toNat) := by
  unfold pySliceTo
  split <;> rfl

/-- Characterization of the trade generator output: the returned list is
a front segment of the descending-sorted trade list, the returned cost is
the cost sum over exactly the returned trades, and when the trade cap is
nonnegative the returned list respects it. -/
theorem generate_trades_spec (r : PortfolioRebalancer) (cur tgt : Weights)
    (pv : ℚ) :
    (∃ m, (generate_rebalance_trades r cur tgt pv).1 =
      (sortDesc ((unionSyms cur tgt).filterMap
        (tradeFor r.config cur tgt pv))).take m) ∧
    (generate_rebalance_trades r cur tgt pv).2 =
      (((generate_rebalance_trades r cur tgt pv).1).map
        (tradeCost r.config)).sum ∧
    (0 ≤ r.config.max_trades_per_period →
      (((generate_rebalance_trades r cur tgt pv).1).length : ℤ) ≤
        r.config.max_trades_per_period) := by
  simp only [generate_rebalance_trades]
  split
  · rename_i hgt
    refine ⟨⟨_, pySliceTo_eq_take _ _⟩, rfl, ?_⟩
    intro hmax
    dsimp only
    rw [pySliceTo_eq_take, if_pos hmax, List.length_take]
    omega
  · rename_i hle
    refine ⟨⟨_, (List.take_length _).symm⟩, ?_, fun _ => not_lt.mp hle⟩
    exact (((sortDesc_perm _).map (tradeCost r.config)).sum_eq).symm

/-- C4 (amended): for all weight maps, every portfolio value and every
configuration, the trade generator returns only trades whose dollar
amount is at least min_trade_amount, returns them sorted weakly
descending by dollar amount, and returns a total cost equal to the cost
sum over exactly the retained trades; the count bound of
max_trades_per_period holds whenever that bound is nonnegative, while a
negative bound is violated because the Python slice then drops only
trades from the end of the list. -/
theorem c4_trade_generator (r : PortfolioRebalancer) (cur tgt : Weights)
    (pv : ℚ) :
    (∀ t ∈ (generate_rebalance_trades r cur tgt pv).1,
        r.config.min_trade_amount ≤ t.trade_amount) ∧
    (0 ≤ r.config.max_trades_per_period →
      (((generate_rebalance_trades r cur tgt pv).1).length : ℤ) ≤
        r.config.max_trades_per_period) ∧
    sortedDesc (generate_rebalance_trades r cur tgt pv).1 ∧
    (generate_rebalance_trades r cur tgt pv).2 =
      (((generate_rebalance_trades r cur tgt pv).1).map
        (tradeCost r.config)).sum := by
  obtain ⟨⟨m, hm⟩, hcost, hlen⟩ := generate_trades_spec r cur tgt pv
  refine ⟨?_, hlen, ?_, hcost⟩
  · intro t ht
    rw [hm] at ht
    have h1 : t ∈ sortDesc ((unionSyms cur tgt).filterMap
        (tradeFor r.config cur tgt pv)) := List.take_subset _ _ ht
    have h2 : t ∈ (unionSyms cur tgt).filterMap
        (tradeFor r.config cur tgt pv) := (sortDesc_perm _).subset h1
    obtain ⟨s, _, hs⟩ := List.mem_filterMap.mp h2
    exact tradeFor_amount hs
  · rw [hm]
    exact (sortDesc_sorted _).take m

/-- A rebalancer whose configured trade cap is the negative number -1. -/
def negCapRebalancer : PortfolioRebalancer where
  config := { defaultConfig with max_trades_per_period := -1 }
  rebalance_history := []
  last_rebalance_date := none

/-- C4 counterexample: with max_trades_per_period set to -1 and two
full-weight swaps, the generator returns one trade (the Python slice with
a negative bound keeps all but the last trade), so the returned trade
count exceeds max_trades_per_period and the claimed bound fails. -/
theorem c4_counterexample :
    ¬ ((((generate_rebalance_trades negCapRebalancer
        [("A", 1), ("B", 0)] [("A", 0), ("B", 1)] 1000).1).length : ℤ) ≤
      negCapRebalancer.config.max_trades_per_period) := by
  norm_num +decide [generate_rebalance_trades, tradeFor, tradeCost, sortDesc,
    insertDesc, pySliceTo, unionSyms, uniqKeepFirst, uniqAux, lookupW,
    negCapRebalancer, defaultConfig, abs_of_nonneg, abs_of_nonpos]

/-- C4 witness: the amended theorem applied to a concrete two-symbol swap
under the default configuration. -/
theorem c4_witness :
    ((((generate_rebalance_trades freshRebalancer
        [("A", 1), ("B", 0)] [("A", 0), ("B", 1)] 1000).1).length : ℤ) ≤
      freshRebalancer.config.max_trades_per_period) ∧
    sortedDesc (generate_rebalance_trades freshRebalancer
      [("A", 1), ("B", 0)] [("A", 0), ("B", 1)] 1000).1 ∧
    (generate_rebalance_trades freshRebalancer
      [("A", 1), ("B", 0)] [("A", 0), ("B", 1)] 1000).2 =
      (((generate_rebalance_trades freshRebalancer
        [("A", 1), ("B", 0)] [("A", 0), ("B", 1)] 1000).1).map
        (tradeCost freshRebalancer.config)).sum :=
  ⟨(c4_trade_generator freshRebalancer [("A", 1), ("B", 0)]
      [("A", 0), ("B", 1)] 1000).2.1 (by decide),
   (c4_trade_generator freshRebalancer [("A", 1), ("B", 0)]
      [("A", 0), ("B", 1)] 1000).2.2.1,
   (c4_trade_generator freshRebalancer [("A", 1), ("B", 0)]
      [("A", 0), ("B", 1)] 1000).2.2.2⟩

/-!
Claim C7.
-/

theorem btStep_cap {cols : List Sym} {tw : Weights} {st st1 : BTState}
    {dr : ℤ × List ℚ} (h : btStep cols tw st dr = some st1)
    (hc : st.rebDates.length ≤ 100) : st1.rebDates.length ≤ 100 := by
  simp only [btStep] at h
  split at h
  · exact Option.noConfusion h
  · split at h
    · rename_i hcond
      injection h with h1
      subst h1
      simp only [List.length_append, List.length_cons, List.length_nil]
      omega
    · injection h with h1
      subst h1
      exact hc

theorem btLoop_cap {cols : List Sym} {tw : Weights} :
    ∀ (rows : List (ℤ × List ℚ)) (st st1 : BTState),
      btLoop cols tw st rows = some st1 → st.rebDates.length ≤ 100 →
      st1.rebDates.length ≤ 100 := by
  intro rows
  induction rows with
  | nil =>
    intro st st1 h hc
    unfold btLoop at h
    injection h with h1
    subst h1
    exact hc
  | cons row rest ih =>
    intro st st1 h hc
    unfold btLoop at h
    cases hs : btStep cols tw st row with
    | none => rw [hs] at h; exact Option.noConfusion h
    | some st2 => rw [hs] at h; exact ih st2 st1 h (btStep_cap hs hc)

/-- C7: in one backtest run a rebalance is executed only while fewer than
100 rebalances have been recorded, so for every price matrix, target
weight map, initial value and rebalancer configuration the run never
records a 101st rebalance and the reported num_rebalances is at most
100. -/
theorem c7_rebalance_cap (r : PortfolioRebalancer) (pd : PriceData)
    (tw : Weights) (iv : ℚ) (res : BacktestResult)
    (h : backtest_rebalancing r pd tw iv = some res) :
    res.num_rebalances ≤ 100 ∧ res.rebalance_dates.length ≤ 100 := by
  simp only [backtest_rebalancing] at h
  split at h
  · exact Option.noConfusion h
  · rename_i first rest
    split at h
    · exact Option.noConfusion h
    · rename_i st hloop
      split at h
      · rename_i fv bhLast hfv hbh
        injection h with h1
        subst h1
        have : st.rebDates.length ≤ 100 :=
          btLoop_cap pd.rows _ st hloop (by simp)
        exact ⟨this, this⟩
      · exact Option.noConfusion h

/-- Single-asset single-day price frame for the C7 witness. -/
def c7Data : PriceData := ⟨["A"], [(0, [1])]⟩

/-- Results of the backtest on the single-asset single-day frame: one
scheduled rebalance is recorded on the only date. -/
def c7res : BacktestResult :=
  ⟨100, 100, 0, 1, 0, 0, [0], [100], [100], 0, 0⟩

/-- C7 witness: the cap theorem applied to a concrete one-day backtest
run that records exactly one rebalance. -/
theorem c7_witness : c7res.num_rebalances ≤ 100 ∧
    c7res.rebalance_dates.length ≤ 100 :=
  c7_rebalance_cap freshRebalancer c7Data [("A", 1)] 100 c7res
    (by
      have hstep : btStep ["A"] [("A", 1)]
          ⟨freshRebalancer, [("A", 100)], [], [], 0⟩ (0, [1]) =
          some ⟨⟨defaultConfig,
            [⟨0, some .scheduled, "Backtest Portfolio", [], 0,
              "Scheduled Monthly rebalancing", [("A", 1)], [("A", 1)]⟩],
            some 0⟩, [("A", 100)], [100], [0], 0⟩ := by
        norm_num +decide [btStep, dayValueWeights, should_rebalance,
          is_scheduled_rebalance_due, execute_rebalance, resetShares, setW,
          generate_rebalance_trades, tradeFor, tradeCost, sortDesc, insertDesc,
          pySliceTo, unionSyms, uniqKeepFirst, uniqAux, lookupW, priceAt,
          max_def, defaultConfig, freshRebalancer, freqValue,
          List.filterMap_cons, abs_of_nonneg, abs_of_nonpos]
      have hish : initialShares ["A"] [1] [("A", 1)] 100 = [("A", 100)] := by
        norm_num +decide [initialShares, priceAt, List.filterMap_cons]
      have hbh : buyHoldValues ⟨["A"], [(0, [1])]⟩ [1] [("A", 1)] 100 =
          [100] := by
        norm_num +decide [buyHoldValues, initialShares, priceAt,
          List.filterMap_cons]
      simp only [backtest_rebalancing, c7Data, hish, btLoop, hstep, hbh]
      norm_num [c7res, List.getLast?])

end Portfolio
